import Mathlib

/-!
Shallow embedding of the swapsol AMM program (src/swap-contract-main/src/
processor.rs and src/swap-contract-main/src/constraints.rs) and proofs about
the claims on its natural-language specification.

Machine integers (u64/u128) are represented as `Nat`; the boundary
conversions `to_u128`/`to_u64` and the one unchecked u128 subtraction are
modelled explicitly.  Account keys (`Pubkey`) are represented as `String`.
Fallible Rust functions returning `Result`/`ProgramError` are embedded as
`Except`.  Ledger mutations (token transfer / mint / burn / native transfer /
account allocation / record packing) are recorded in an explicit action
trace, in the order the source issues them; an early `return Err(..)`
produces the trace of the actions issued up to that point.
-/

namespace SwapSol

/-- Account keys.  `solana_program::pubkey::Pubkey` is an opaque 32-byte
identifier compared only for equality in the embedded code; we represent it
as a string. -/
abbrev Pubkey := String

/-- Curve kinds.  `curve/base.rs` is outside src/; the spec lists the single
variant ConstantProduct (`CurveType::ConstantProduct`), the only member of
`VALID_CURVE_TYPES` in constraints.rs. -/
inductive CurveType
  | ConstantProduct
deriving DecidableEq

/-- Fee schedule (curve/fees.rs, fields used by constraints.rs and
processor.rs): all u64 numerator/denominator values. -/
structure Fees where
  fixed_fee_numerator : Nat
  return_fee_numerator : Nat
  fee_denominator : Nat
deriving DecidableEq

/-- The error enum of error.rs, restricted to the variants the embedded
handlers can produce. -/
inductive AmmError
  | AlreadyInUse
  | InvalidProgramAddress
  | InvalidStateAddress
  | InvalidStateOwner
  | InvalidOwner
  | InvalidOutputOwner
  | ExpectedMint
  | ExpectedAccount
  | EmptySupply
  | InvalidDecimals
  | InvalidSupply
  | RepeatedMint
  | InvalidDelegate
  | InvalidInput
  | IncorrectSwapAccount
  | IncorrectPoolMint
  | CalculationFailure
  | ExceededSlippage
  | InvalidCloseAuthority
  | InvalidFreezeAuthority
  | IncorrectMarketOwnerAccount
  | InvalidSigner
  | NotInitializedState
  | IncorrectFeeAccount
  | ZeroTradingTokens
  | ConversionFailure
  | InvalidFee
  | IncorrectTokenProgramId
  | UnsupportedCurveType
  | InvalidCurve
  | UnsupportedCurveOperation
deriving DecidableEq

/-- `ProgramError`: either a program-specific `AmmError` (via `.into()`) or
one of the builtin variants the processor returns directly. -/
inductive PErr
  | amm (e : AmmError)
  | incorrectProgramId
  | invalidAccountData
deriving DecidableEq

instance {ε α : Type} [DecidableEq ε] [DecidableEq α] : DecidableEq (Except ε α) := fun a b =>
  match a, b with
  | .ok x, .ok y =>
      if h : x = y then isTrue (congrArg Except.ok h)
      else isFalse (fun hc => h (Except.ok.inj hc))
  | .error x, .error y =>
      if h : x = y then isTrue (congrArg Except.error h)
      else isFalse (fun hc => h (Except.error.inj hc))
  | .ok _, .error _ => isFalse (fun hc => Except.noConfusion hc)
  | .error _, .ok _ => isFalse (fun hc => Except.noConfusion hc)

/-- Trade direction (curve/calculator.rs, used by processor.rs). -/
inductive TradeDirection
  | AtoB
  | BtoA
deriving DecidableEq

/-- Rounding direction for pool-token conversion (curve/calculator.rs). -/
inductive RoundDirection
  | Floor
  | Ceiling
deriving DecidableEq

/-- Result record of a curve swap computation (curve/calculator.rs,
`SwapWithoutFeesResult`/`SwapResult`); all fields u128. -/
structure TradeResult where
  source_amount_swapped : Nat
  destination_amount_swapped : Nat
  owner_fee : Nat
  new_swap_source_amount : Nat
  new_swap_destination_amount : Nat
deriving DecidableEq

/-- Result of `pool_tokens_to_trading_tokens` (curve/calculator.rs). -/
structure TradingTokenResult where
  token_a_amount : Nat
  token_b_amount : Nat
deriving DecidableEq

/-- Modelled from the spec: the curve calculator behind the `Box<dyn
CurveCalculator>` slot of `SwapCurve` (curve/constant_product.rs is outside
src/).  Per the spec's design note it is embedded as a closed sum type; the
only variant whitelisted by `GovernanceConstraints` is the constant-product
calculator. -/
inductive CurveCalculator
  | constantProduct
deriving DecidableEq

/-- Modelled from the spec: `INITIAL_SWAP_POOL_AMOUNT` is a fixed constant
declared in curve/calculator.rs, outside src/.  No claim below depends on
its numeric value. -/
def INITIAL_SWAP_POOL_AMOUNT : Nat := 1000000000

/-- Modelled from the spec: the calculator's self-reported kind
(`calculator.get_curve_type()`), which must agree with the tag of the
`SwapCurve` holding it. -/
def CurveCalculator.get_curve_type : CurveCalculator → CurveType
  | .constantProduct => .ConstantProduct

/-- Modelled from the spec: constant-product swap (curve missing from src/).
The configured fixed-fee fraction is skimmed from `amount_in` first
(`owner_fee = floor(amount_in * fixed_fee_numerator / fee_denominator)`, cf.
the spec's worked example), the invariant-preserving trade is computed on the
post-fee amount, and `none` is returned - the explicit no-trade signal -
whenever a computed quantity would be zero. -/
def CurveCalculator.swap (c : CurveCalculator)
    (amount_in swap_source_amount swap_destination_amount : Nat)
    (_dir : TradeDirection) (fees : Fees) : Option TradeResult :=
  match c with
  | .constantProduct =>
    if fees.fee_denominator = 0 then none else
    let owner_fee := amount_in * fees.fixed_fee_numerator / fees.fee_denominator
    let net_amount_in := amount_in - owner_fee
    if net_amount_in = 0 then none else
    let new_source := swap_source_amount + net_amount_in
    let dest_out :=
      swap_destination_amount - swap_source_amount * swap_destination_amount / new_source
    if dest_out = 0 then none else
    some { source_amount_swapped := amount_in
           destination_amount_swapped := dest_out
           owner_fee := owner_fee
           new_swap_source_amount := new_source
           new_swap_destination_amount := swap_destination_amount - dest_out }

/-- Modelled from the spec: proportional pool-token conversion
`token_x = pool_tokens * reserve_x / pool_supply`, rounding per direction,
`none` when `pool_supply = 0` (curve missing from src/). -/
def CurveCalculator.pool_tokens_to_trading_tokens (c : CurveCalculator)
    (pool_tokens pool_token_supply swap_token_a_amount swap_token_b_amount : Nat)
    (round : RoundDirection) : Option TradingTokenResult :=
  match c with
  | .constantProduct =>
    if pool_token_supply = 0 then none else
    match round with
    | .Floor =>
        some { token_a_amount := pool_tokens * swap_token_a_amount / pool_token_supply
               token_b_amount := pool_tokens * swap_token_b_amount / pool_token_supply }
    | .Ceiling =>
        some { token_a_amount :=
                 (pool_tokens * swap_token_a_amount + pool_token_supply - 1) / pool_token_supply
               token_b_amount :=
                 (pool_tokens * swap_token_b_amount + pool_token_supply - 1) / pool_token_supply }

/-- Modelled from the spec: `calculator.validate()` checks the calculator's
own parameters; the constant-product calculator has none, so it always
succeeds (curve missing from src/). -/
def CurveCalculator.validate (c : CurveCalculator) : Except PErr Unit :=
  match c with
  | .constantProduct => .ok ()

/-- Modelled from the spec: `validate_supply` rejects pool initialization
when either reserve is zero (curve missing from src/). -/
def CurveCalculator.validate_supply (c : CurveCalculator)
    (token_a_amount token_b_amount : Nat) : Except PErr Unit :=
  match c with
  | .constantProduct =>
    if token_a_amount = 0 then .error (.amm .EmptySupply) else
    if token_b_amount = 0 then .error (.amm .EmptySupply) else
    .ok ()

/-- Modelled from the spec: `allows_deposits` capability of the calculator
(curve missing from src/). -/
def CurveCalculator.allows_deposits (c : CurveCalculator) : Bool :=
  match c with
  | .constantProduct => true

/-- `SwapCurve` (curve/base.rs): curve type tag plus the calculator slot. -/
structure SwapCurve where
  curve_type : CurveType
  calculator : CurveCalculator
deriving DecidableEq

/-- Modelled from the spec: `Fees::validate` internal self-consistency,
each numerator strictly below the denominator (curve/fees.rs missing from
src/). -/
def Fees.validate (f : Fees) : Except PErr Unit :=
  if f.fixed_fee_numerator < f.fee_denominator ∧
     f.return_fee_numerator < f.fee_denominator
  then .ok () else .error (.amm .InvalidFee)

/-- `SwapConstraints` (constraints.rs). -/
structure SwapConstraints where
  owner_key : Pubkey
  valid_curve_types : List CurveType
  fees : Fees

/-- `SwapConstraints::validate_curve` (constraints.rs lines 30-38). -/
def SwapConstraints.validate_curve (self : SwapConstraints)
    (swap_curve : SwapCurve) : Except PErr Unit :=
  if (self.valid_curve_types.any (fun x => x = swap_curve.curve_type)) &&
     (self.valid_curve_types.any (fun x => x = swap_curve.calculator.get_curve_type))
  then .ok ()
  else .error (.amm .UnsupportedCurveType)

/-- `SwapConstraints::validate_fees` (constraints.rs lines 41-50). -/
def SwapConstraints.validate_fees (self : SwapConstraints)
    (fees : Fees) : Except PErr Unit :=
  if fees.return_fee_numerator ≥ self.fees.return_fee_numerator ∧
     fees.fixed_fee_numerator ≥ self.fees.fixed_fee_numerator ∧
     fees.fee_denominator = self.fees.fee_denominator
  then .ok ()
  else .error (.amm .InvalidFee)

/-- `OWNER_KEY` (constraints.rs line 55). -/
def OWNER_KEY : Pubkey := "DjXkZxNWUoGsL87rbWRFVPmoxN1FKXUWpinUyN921PwQ"

/-- `FEES` (constraints.rs lines 57-61). -/
def FEES : Fees :=
  { fixed_fee_numerator := 20, return_fee_numerator := 10, fee_denominator := 10000 }

/-- `VALID_CURVE_TYPES` (constraints.rs line 62). -/
def VALID_CURVE_TYPES : List CurveType := [.ConstantProduct]

/-- `SWAP_CONSTRAINTS` (constraints.rs lines 70-74). -/
def SWAP_CONSTRAINTS : SwapConstraints :=
  { owner_key := OWNER_KEY, valid_curve_types := VALID_CURVE_TYPES, fees := FEES }

/-- `INITIAL_STATE_OWNER` (processor.rs line 39). -/
def INITIAL_STATE_OWNER : Pubkey := "DjXkZxNWUoGsL87rbWRFVPmoxN1FKXUWpinUyN921PwQ"

/-- `AMM_STATE_SEED` (processor.rs line 42). -/
def AMM_STATE_SEED : String := "AmmState"

/-- `WSOL_MINT_ADDRESS` (processor.rs line 45). -/
def WSOL_MINT_ADDRESS : Pubkey := "So11111111111111111111111111111111111111112"

/-- `LP_MINT_DECIMALS` (processor.rs line 47). -/
def LP_MINT_DECIMALS : Nat := 8

/-- `MIN_LP_SUPPLY` (processor.rs line 49). -/
def MIN_LP_SUPPLY : Nat := 100000

/-- An SPL token account (spl_token::state::Account), the fields the
processor reads. -/
structure TokenAccount where
  mint : Pubkey
  owner : Pubkey
  amount : Nat
  delegate : Option Pubkey
  close_authority : Option Pubkey
  is_frozen : Bool
deriving DecidableEq

/-- An SPL token mint (spl_token::state::Mint), the fields the processor
reads. -/
structure MintRec where
  mint_authority : Option Pubkey
  supply : Nat
  decimals : Nat
  freeze_authority : Option Pubkey
deriving DecidableEq

/-- The persisted pool record `SwapV1` (amm_stats.rs, fields as written by
`process_initialize` lines 497-509 and read through the `AmmStatus`
accessors). -/
structure SwapV1 where
  is_initialized : Bool
  nonce : Nat
  amm_id : Pubkey
  dex_program_id : Pubkey
  market_id : Pubkey
  token_program_id : Pubkey
  token_a : Pubkey
  token_b : Pubkey
  pool_mint : Pubkey
  token_a_mint : Pubkey
  token_b_mint : Pubkey
deriving DecidableEq

/-- The persisted global configuration record `ProgramState` (amm_stats.rs,
fields as written by `process_update_state` lines 333-372). -/
structure ProgramState where
  is_initialized : Bool
  initial_supply : Nat
  state_owner : Pubkey
  fee_owner : Pubkey
  fees : Fees
  swap_curve : SwapCurve
deriving DecidableEq

/-- Parse of all-zero account data into a `ProgramState`: every flag false,
every scalar zero, curve tag zero (= ConstantProduct). -/
def zeroProgramState : ProgramState :=
  { is_initialized := false
    initial_supply := 0
    state_owner := ""
    fee_owner := ""
    fees := { fixed_fee_numerator := 0, return_fee_numerator := 0, fee_denominator := 0 }
    swap_curve := { curve_type := .ConstantProduct, calculator := .constantProduct } }

/-- An account reference together with its owning program and (optionally
parseable) data, as consumed by `unpack_token_account` / `unpack_mint`. -/
structure AccountRec (α : Type) where
  key : Pubkey
  owner : Pubkey
  data : Option α
deriving DecidableEq

/-- Modelled from the spec: `Pubkey::find_program_address`, the injected
deterministic key-derivation collaborator, represented as tagged string
concatenation (total, injective on its arguments). -/
def find_program_address (seed : String) (program_id : Pubkey) : Pubkey :=
  "pda:" ++ seed ++ ":" ++ program_id

/-- Modelled from the spec: `Processor::authority_id` (processor.rs lines
141-148), `Pubkey::create_program_address` over the swap key and nonce,
represented as tagged string concatenation (the off-curve failure case of
the real derivation is outside this model). -/
def authority_id (program_id : Pubkey) (my_info : Pubkey) (nonce : Nat) : Pubkey :=
  "auth:" ++ my_info ++ ":" ++ Nat.repr nonce ++ ":" ++ program_id

/-- `Processor::check_state_account` (processor.rs lines 125-138). -/
def check_state_account (program_id : Pubkey) (key : Pubkey) : Except PErr Unit :=
  if find_program_address AMM_STATE_SEED program_id ≠ key
  then .error (.amm .InvalidStateAddress)
  else .ok ()

/-- `Processor::unpack_token_account` (processor.rs lines 54-64). -/
def unpack_token_account (info : AccountRec TokenAccount)
    (token_program_id : Pubkey) : Except AmmError TokenAccount :=
  if info.owner ≠ token_program_id then .error .IncorrectTokenProgramId
  else match info.data with
    | some a => .ok a
    | none => .error .ExpectedAccount

/-- `Processor::unpack_mint` (processor.rs lines 112-122). -/
def unpack_mint (info : AccountRec MintRec)
    (token_program_id : Pubkey) : Except AmmError MintRec :=
  if info.owner ≠ token_program_id then .error .IncorrectTokenProgramId
  else match info.data with
    | some m => .ok m
    | none => .error .ExpectedMint

/-- `to_u64` (processor.rs lines 1400-1402): u128 to u64 conversion. -/
def to_u64 (val : Nat) : Except AmmError Nat :=
  if val < 2 ^ 64 then .ok val else .error .ConversionFailure

/-- `u128::checked_sub`. -/
def checked_sub (a b : Nat) : Option Nat :=
  if b ≤ a then some (a - b) else none

/-- The unchecked u128 subtraction `a - b` of processor.rs line 642, with
Rust release-mode wrap-around semantics. -/
def wrappingSub128 (a b : Nat) : Nat :=
  (a + 2 ^ 128 - b % 2 ^ 128) % 2 ^ 128

/-- A ledger mutation issued by a handler, in issue order. -/
inductive Action
  | allocate
  | packState (s : ProgramState)
  | packSwap (s : SwapV1)
  | mintTo (mint destination : Pubkey) (amount : Nat)
  | burn (account mint : Pubkey) (amount : Nat)
  | transfer (source destination : Pubkey) (amount : Nat)
  | nativeTransfer (source destination : Pubkey) (amount : Nat)
deriving DecidableEq

/-- C3: `SwapConstraints::validate_fees` succeeds exactly when both
numerators are at or above the floor and the denominators match; the floor
itself is accepted, and a numerator strictly below the floor is rejected
with `InvalidFee`. -/
theorem claim_C3 (c : SwapConstraints) (f : Fees) :
    (c.validate_fees f = .ok () ↔
      c.fees.fixed_fee_numerator ≤ f.fixed_fee_numerator ∧
      c.fees.return_fee_numerator ≤ f.return_fee_numerator ∧
      f.fee_denominator = c.fees.fee_denominator)
    ∧ c.validate_fees c.fees = .ok ()
    ∧ (f.fixed_fee_numerator < c.fees.fixed_fee_numerator ∨
       f.return_fee_numerator < c.fees.return_fee_numerator →
        c.validate_fees f = .error (.amm .InvalidFee)) := by
  unfold SwapConstraints.validate_fees
  refine ⟨?_, ?_, ?_⟩
  · split
    · rename_i h
      simp only [true_iff]
      exact ⟨h.2.1, h.1, h.2.2⟩
    · rename_i h
      constructor
      · intro hc
        exact absurd hc (by simp)
      · intro ⟨h1, h2, h3⟩
        exact absurd ⟨h2, h1, h3⟩ h
  · simp
  · intro h
    split
    · rename_i hg
      rcases h with h | h
      · exact absurd hg.2.1 (by omega)
      · exact absurd hg.1 (by omega)
    · rfl

/-- Witness for C3: the constraint floor `SWAP_CONSTRAINTS` accepts its own
fee schedule and rejects a schedule whose fixed-fee numerator is one below
the floor. -/
theorem claim_C3_witness :
    SWAP_CONSTRAINTS.validate_fees SWAP_CONSTRAINTS.fees = .ok () ∧
    SWAP_CONSTRAINTS.validate_fees
      { fixed_fee_numerator := 19, return_fee_numerator := 10, fee_denominator := 10000 }
      = .error (.amm .InvalidFee) := by
  refine ⟨(claim_C3 SWAP_CONSTRAINTS SWAP_CONSTRAINTS.fees).2.1, ?_⟩
  exact (claim_C3 SWAP_CONSTRAINTS
    { fixed_fee_numerator := 19, return_fee_numerator := 10, fee_denominator := 10000 }).2.2
    (Or.inl (by decide))

/-- Input record of `Processor::process_update_state` (processor.rs lines
280-298): scalar parameters plus the ordered account list.  `state_data =
none` models an empty (unallocated) state account. -/
structure UpdateStateInput where
  program_id : Pubkey
  initial_supply : Nat
  fees : Fees
  swap_curve : SwapCurve
  state_key : Pubkey
  state_data : Option ProgramState
  cur_owner_key : Pubkey
  cur_owner_is_signer : Bool
  new_owner_key : Pubkey
  fee_owner_key : Pubkey
deriving DecidableEq

/-- Output of the update-state handler: the final result, the issued
mutation trace, and the contents of the state record after the issued
mutations. -/
structure UpdOut where
  result : Except PErr Unit
  trace : List Action
  final : Option ProgramState
deriving DecidableEq

/-- The default-populated state written on the lazy first-write path
(processor.rs lines 333-350). -/
def defaultProgramState : ProgramState :=
  { is_initialized := true
    initial_supply := INITIAL_SWAP_POOL_AMOUNT
    state_owner := INITIAL_STATE_OWNER
    fee_owner := SWAP_CONSTRAINTS.owner_key
    fees := { fixed_fee_numerator := SWAP_CONSTRAINTS.fees.fixed_fee_numerator
              return_fee_numerator := SWAP_CONSTRAINTS.fees.return_fee_numerator
              fee_denominator := SWAP_CONSTRAINTS.fees.fee_denominator }
    swap_curve := { curve_type := .ConstantProduct, calculator := .constantProduct } }

/-- The lazy allocation and default population of processor.rs lines
313-351: allocate when the record is empty, parse it (empty data parses as
all-zero), and if the parsed record is uninitialized overwrite every field
with the defaults and pack.  Returns the issued actions, the in-memory
`program_state` the following checks run against, and the record contents
after these mutations. -/
def lazyInitState (inp : UpdateStateInput) :
    List Action × ProgramState × Option ProgramState :=
  let allocActions : List Action := if inp.state_data.isNone then [.allocate] else []
  let parsed := inp.state_data.getD zeroProgramState
  if parsed.is_initialized then (allocActions, parsed, inp.state_data)
  else (allocActions ++ [.packState defaultProgramState],
        defaultProgramState, some defaultProgramState)

/-- The validation block of processor.rs lines 353-362 that runs after the
lazy initialization: state-owner match, `validate_curve`, `validate_fees`,
fee self-consistency, calculator validity, in source order. -/
def updValidate (program_state : ProgramState) (inp : UpdateStateInput) :
    Except PErr Unit :=
  if program_state.state_owner ≠ inp.cur_owner_key then .error (.amm .InvalidStateOwner)
  else match SWAP_CONSTRAINTS.validate_curve inp.swap_curve with
  | .error e => .error e
  | .ok _ =>
    match SWAP_CONSTRAINTS.validate_fees inp.fees with
    | .error e => .error e
    | .ok _ =>
      match inp.fees.validate with
      | .error e => .error e
      | .ok _ => inp.swap_curve.calculator.validate

/-- `Processor::process_update_state` (processor.rs lines 280-375). -/
def process_update_state (inp : UpdateStateInput) : UpdOut :=
  match check_state_account inp.program_id inp.state_key with
  | .error e => ⟨.error e, [], inp.state_data⟩
  | .ok _ =>
    if inp.cur_owner_is_signer then
      let li := lazyInitState inp
      match updValidate li.2.1 inp with
      | .error e => ⟨.error e, li.1, li.2.2⟩
      | .ok _ =>
        let obj : ProgramState :=
          { is_initialized := true
            initial_supply := inp.initial_supply
            state_owner := inp.new_owner_key
            fee_owner := inp.fee_owner_key
            fees := inp.fees
            swap_curve := inp.swap_curve }
        ⟨.ok (), li.1 ++ [.packState obj], some obj⟩
    else ⟨.error (.amm .InvalidSigner), [], inp.state_data⟩

/-- If the post-initialization validation block succeeds, the state-owner
match passed: the in-memory owner equals the calling signer's key. -/
theorem updValidate_ok_owner {st : ProgramState} {inp : UpdateStateInput} {u : Unit}
    (h : updValidate st inp = .ok u) : st.state_owner = inp.cur_owner_key := by
  by_contra hne
  simp only [updValidate, if_pos hne] at h
  exact Except.noConfusion h

/-- On an empty or uninitialized state record, the lazy path allocates (when
empty), default-populates and packs. -/
theorem lazyInitState_uninit {inp : UpdateStateInput}
    (hun : inp.state_data = none ∨
      ∃ s, inp.state_data = some s ∧ s.is_initialized = false) :
    lazyInitState inp =
      ((if inp.state_data.isNone then [Action.allocate] else []) ++
         [.packState defaultProgramState],
       defaultProgramState, some defaultProgramState) := by
  rcases hun with h | ⟨s, h, hs⟩
  · simp [lazyInitState, h, zeroProgramState]
  · simp [lazyInitState, h, hs]

/-- A concrete first-write invocation by a non-default caller: empty state
record, correct state address, signing caller whose key is not the default
owner. -/
def updInputMallory : UpdateStateInput :=
  { program_id := "prog"
    initial_supply := 7
    fees := FEES
    swap_curve := { curve_type := .ConstantProduct, calculator := .constantProduct }
    state_key := find_program_address AMM_STATE_SEED "prog"
    state_data := none
    cur_owner_key := "mallory"
    cur_owner_is_signer := true
    new_owner_key := "mallory"
    fee_owner_key := "mallory"
    }

/-- Counterexample to C1: on the lazy first-write path the handler allocates
the state record and packs the default-populated state before the
state-owner check runs, so an invocation that fails that check leaves the
record default-populated, not as it was: mutations were issued before
validation completed. -/
theorem claim_C1_counterexample :
    (process_update_state updInputMallory).result = .error (.amm .InvalidStateOwner) ∧
    updInputMallory.state_data = none ∧
    (process_update_state updInputMallory).trace =
      [.allocate, .packState defaultProgramState] ∧
    (process_update_state updInputMallory).final ≠ updInputMallory.state_data := by
  decide

/-- C1 (amended): on every invocation that finds the state record already
initialized, the five validation checks (state-owner match, validate_curve,
validate_fees, fee self-consistency, calculator validity) all complete
before the single state write, and a failed check returns with no mutation
issued and the record exactly as it was; on the lazy first-write path the
allocation and default population are instead issued before those checks
(see the counterexample). -/
theorem claim_C1_amended (inp : UpdateStateInput) (s : ProgramState) (e : PErr)
    (h1 : inp.state_data = some s) (h2 : s.is_initialized = true)
    (he : (process_update_state inp).result = .error e) :
    (process_update_state inp).trace = [] ∧
    (process_update_state inp).final = inp.state_data := by
  have hli : lazyInitState inp = ([], s, inp.state_data) := by
    simp [lazyInitState, h1, h2]
  unfold process_update_state at he ⊢
  cases hc : check_state_account inp.program_id inp.state_key with
  | error e1 => simp [hc]
  | ok u =>
    simp only [hc] at he ⊢
    by_cases hs : inp.cur_owner_is_signer
    · simp only [hs, if_true, hli] at he ⊢
      cases hv : updValidate s inp with
      | error e2 => simp [hv]
      | ok u2 => simp [hv] at he
    · simp [hs]

/-- An already-initialized state record whose owner is "gov". -/
def govState : ProgramState :=
  { is_initialized := true
    initial_supply := 5
    state_owner := "gov"
    fee_owner := "feeOwner"
    fees := FEES
    swap_curve := { curve_type := .ConstantProduct, calculator := .constantProduct } }

/-- An invocation on the initialized record by a signer who is not the
owner. -/
def updInputNotOwner : UpdateStateInput :=
  { updInputMallory with state_data := some govState, cur_owner_key := "other" }

/-- Witness for the amended C1: a failing owner check on an
already-initialized record issues no mutation and leaves the record as it
was. -/
theorem claim_C1_amended_witness :
    (process_update_state updInputNotOwner).trace = [] ∧
    (process_update_state updInputNotOwner).final = updInputNotOwner.state_data :=
  claim_C1_amended updInputNotOwner govState (.amm .InvalidStateOwner)
    (by decide) (by decide) (by decide)

/-- C8: an invocation finding the state record empty or uninitialized first
default-populates it with the fixed default owner `INITIAL_STATE_OWNER`, the
governance fee floor, the constant-product curve and the fixed initial
supply; within the same invocation, the final state write proceeds only if
the signing caller's key equals the (now default) state owner. -/
theorem claim_C8 (inp : UpdateStateInput)
    (hkey : find_program_address AMM_STATE_SEED inp.program_id = inp.state_key)
    (hsig : inp.cur_owner_is_signer = true)
    (hun : inp.state_data = none ∨
      ∃ s, inp.state_data = some s ∧ s.is_initialized = false) :
    defaultProgramState.state_owner = INITIAL_STATE_OWNER ∧
    defaultProgramState.fees = SWAP_CONSTRAINTS.fees ∧
    defaultProgramState.swap_curve =
      { curve_type := .ConstantProduct, calculator := .constantProduct } ∧
    defaultProgramState.initial_supply = INITIAL_SWAP_POOL_AMOUNT ∧
    (∃ rest, (process_update_state inp).trace =
        (if inp.state_data.isNone then [Action.allocate] else []) ++
          Action.packState defaultProgramState :: rest ∧
      (rest ≠ [] → inp.cur_owner_key = INITIAL_STATE_OWNER)) ∧
    ((process_update_state inp).result = .ok () →
      inp.cur_owner_key = INITIAL_STATE_OWNER) := by
  refine ⟨rfl, rfl, rfl, rfl, ?_⟩
  have hli := lazyInitState_uninit hun
  have hck : check_state_account inp.program_id inp.state_key = .ok () := by
    simp [check_state_account, hkey]
  unfold process_update_state
  simp only [hck, hsig, if_true, hli]
  cases hv : updValidate defaultProgramState inp with
  | error e2 =>
      refine ⟨⟨[], by simp, by simp⟩, by simp⟩
  | ok u2 =>
      have hown := updValidate_ok_owner hv
      refine ⟨⟨[.packState
        { is_initialized := true
          initial_supply := inp.initial_supply
          state_owner := inp.new_owner_key
          fee_owner := inp.fee_owner_key
          fees := inp.fees
          swap_curve := inp.swap_curve }], by simp, fun _ => hown.symm⟩,
        fun _ => hown.symm⟩

/-- A first-write invocation by the default owner with floor fees and the
constant-product curve. -/
def updInputDefaultOwner : UpdateStateInput :=
  { updInputMallory with
      cur_owner_key := INITIAL_STATE_OWNER
      new_owner_key := "gov"
      fee_owner_key := "feeOwner" }

/-- Witness for C8: on a concrete empty-record invocation the trace begins
with the allocation and the default-populated pack, and any further write
implies the caller is the default owner. -/
theorem claim_C8_witness :
    ∃ rest, (process_update_state updInputDefaultOwner).trace =
      [Action.allocate] ++ Action.packState defaultProgramState :: rest ∧
      (rest ≠ [] → updInputDefaultOwner.cur_owner_key = INITIAL_STATE_OWNER) := by
  have h := claim_C8 updInputDefaultOwner (by decide) (by decide) (Or.inl rfl)
  simpa using h.2.2.2.2.1

/-- The trade direction inferred on a swap (processor.rs lines 582-586):
A-to-B exactly when the supplied swap-source account key equals the pool's
token A account, B-to-A otherwise. -/
def swap_trade_direction (source_key token_a _token_b : Pubkey) : TradeDirection :=
  if source_key = token_a then .AtoB else .BtoA

/-- Input record of `Processor::process_swap` (processor.rs lines 515-536):
scalar parameters plus the ordered account list. -/
structure SwapInput where
  program_id : Pubkey
  amount_in : Nat
  minimum_amount_out : Nat
  swap_key : Pubkey
  swap_owner : Pubkey
  swap_data : Option SwapV1
  authority_key : Pubkey
  user_transfer_authority_key : Pubkey
  state_key : Pubkey
  state_data : Option ProgramState
  source_key : Pubkey
  swap_source : AccountRec TokenAccount
  swap_destination : AccountRec TokenAccount
  destination_key : Pubkey
  pool_mint_key : Pubkey
  fixed_fee_account : AccountRec TokenAccount
  fixed_fee_wallet_key : Pubkey
  token_program_key : Pubkey
deriving DecidableEq

/-- The resolved context once every pre-trade validation of `process_swap`
has passed (processor.rs lines 538-608). -/
structure SwapCtx where
  token_swap : SwapV1
  state : ProgramState
  source_account : TokenAccount
  dest_account : TokenAccount
  trade_direction : TradeDirection
deriving DecidableEq

/-- Output of a trading handler: final result plus the issued mutation
trace. -/
structure HOut where
  result : Except PErr Unit
  trace : List Action
deriving DecidableEq

/-- The validation prefix of `Processor::process_swap` (processor.rs lines
538-608), every check in source order; no mutation is issued here. -/
def swapPrecheck (inp : SwapInput) : Except PErr SwapCtx :=
  if inp.swap_owner ≠ inp.program_id then .error .incorrectProgramId else
  match inp.swap_data with
  | none => .error .invalidAccountData
  | some token_swap =>
  if inp.authority_key ≠ authority_id inp.program_id inp.swap_key token_swap.nonce
  then .error (.amm .InvalidProgramAddress) else
  match check_state_account inp.program_id inp.state_key with
  | .error e => .error e
  | .ok _ =>
  if (inp.state_data.getD zeroProgramState).is_initialized = false
  then .error (.amm .NotInitializedState) else
  if ¬(inp.swap_source.key = token_swap.token_a ∨
       inp.swap_source.key = token_swap.token_b)
  then .error (.amm .IncorrectSwapAccount) else
  if ¬(inp.swap_destination.key = token_swap.token_a ∨
       inp.swap_destination.key = token_swap.token_b)
  then .error (.amm .IncorrectSwapAccount) else
  if inp.swap_source.key = inp.swap_destination.key then .error (.amm .InvalidInput) else
  if inp.swap_source.key = inp.source_key then .error (.amm .InvalidInput) else
  if inp.swap_destination.key = inp.destination_key then .error (.amm .InvalidInput) else
  if inp.pool_mint_key ≠ token_swap.pool_mint then .error (.amm .IncorrectPoolMint) else
  if inp.token_program_key ≠ token_swap.token_program_id
  then .error (.amm .IncorrectTokenProgramId) else
  match unpack_token_account inp.swap_source token_swap.token_program_id with
  | .error e => .error (.amm e)
  | .ok source_account =>
  match unpack_token_account inp.swap_destination token_swap.token_program_id with
  | .error e => .error (.amm e)
  | .ok dest_account =>
  if (inp.state_data.getD zeroProgramState).fee_owner ≠ inp.fixed_fee_wallet_key
  then .error (.amm .InvalidOwner) else
  if WSOL_MINT_ADDRESS ≠ source_account.mint then
    match unpack_token_account inp.fixed_fee_account token_swap.token_program_id with
    | .error e => .error (.amm e)
    | .ok fee_account =>
      if (inp.state_data.getD zeroProgramState).fee_owner ≠ fee_account.owner ∨
         source_account.mint ≠ fee_account.mint
      then .error (.amm .IncorrectFeeAccount)
      else .ok ⟨token_swap, inp.state_data.getD zeroProgramState, source_account,
                dest_account,
                swap_trade_direction inp.swap_source.key token_swap.token_a
                  token_swap.token_b⟩
  else .ok ⟨token_swap, inp.state_data.getD zeroProgramState, source_account,
            dest_account,
            swap_trade_direction inp.swap_source.key token_swap.token_a
              token_swap.token_b⟩

/-- `Processor::process_swap` (processor.rs lines 515-685).  After the
validation prefix, the curve computation, the slippage gate, and then the
ledger mutations in source order: debit the caller's source into the pool
net of the owner fee, pay the owner fee (native transfer when the source
mint is wrapped SOL, token transfer otherwise), credit the destination. -/
def process_swap (inp : SwapInput) : HOut :=
  match swapPrecheck inp with
  | .error e => ⟨.error e, []⟩
  | .ok ctx =>
    match ctx.state.swap_curve.calculator.swap inp.amount_in
        ctx.source_account.amount ctx.dest_account.amount
        ctx.trade_direction ctx.state.fees with
    | none => ⟨.error (.amm .ZeroTradingTokens), []⟩
    | some result =>
      if result.destination_amount_swapped < inp.minimum_amount_out
      then ⟨.error (.amm .ExceededSlippage), []⟩ else
      match to_u64 (wrappingSub128 result.source_amount_swapped result.owner_fee) with
      | .error e => ⟨.error (.amm e), []⟩
      | .ok net =>
      let t1 := [Action.transfer inp.source_key inp.swap_source.key net]
      match to_u64 result.owner_fee with
      | .error e => ⟨.error (.amm e), t1⟩
      | .ok fee64 =>
      let t2 := t1 ++
        (if ctx.source_account.mint = WSOL_MINT_ADDRESS
         then [Action.nativeTransfer inp.user_transfer_authority_key
                 inp.fixed_fee_wallet_key fee64]
         else [Action.transfer inp.source_key inp.fixed_fee_account.key fee64])
      match to_u64 result.destination_amount_swapped with
      | .error e => ⟨.error (.amm e), t2⟩
      | .ok dest64 =>
        ⟨.ok (), t2 ++ [Action.transfer inp.swap_destination.key inp.destination_key dest64]⟩

/-- `to_u64` succeeds only by returning its argument unchanged. -/
theorem to_u64_ok {v w : Nat} (h : to_u64 v = .ok w) : w = v := by
  unfold to_u64 at h
  split at h
  · exact (Except.ok.inj h).symm
  · exact Except.noConfusion h

/-- `to_u64` fails only with `ConversionFailure`. -/
theorem to_u64_error {v : Nat} {e : AmmError} (h : to_u64 v = .error e) :
    e = .ConversionFailure := by
  unfold to_u64 at h
  split at h
  · exact Except.noConfusion h
  · exact (Except.error.inj h).symm

/-- Under the no-underflow precondition, the wrapping u128 subtraction is
plain subtraction. -/
theorem wrappingSub128_of_le {a b : Nat} (hle : b ≤ a) (ha : a < 2 ^ 128) :
    wrappingSub128 a b = a - b := by
  unfold wrappingSub128
  have hb : b % 2 ^ 128 = b := Nat.mod_eq_of_lt (lt_of_le_of_lt hle ha)
  rw [hb]
  have h1 : a + 2 ^ 128 - b = (a - b) + 2 ^ 128 := by omega
  rw [h1, Nat.add_mod_right]
  exact Nat.mod_eq_of_lt (by omega)

/-- Inversion of a successful swap precheck: the pool record came from the
swap account's data, the supplied swap-source key matched one of the pool's
two token accounts, and the trade direction in the context is exactly the
one inferred from that match. -/
theorem swapPrecheck_ok_inv {inp : SwapInput} {ctx : SwapCtx}
    (h : swapPrecheck inp = .ok ctx) :
    inp.swap_data = some ctx.token_swap ∧
    (inp.swap_source.key = ctx.token_swap.token_a ∨
     inp.swap_source.key = ctx.token_swap.token_b) ∧
    ctx.trade_direction = swap_trade_direction inp.swap_source.key
      ctx.token_swap.token_a ctx.token_swap.token_b := by
  unfold swapPrecheck at h
  by_cases h0 : inp.swap_owner ≠ inp.program_id
  · simp only [if_pos h0] at h; exact Except.noConfusion h
  · simp only [if_neg h0] at h
    cases hd : inp.swap_data with
    | none => simp only [hd] at h; exact Except.noConfusion h
    | some ts =>
      simp only [hd] at h
      by_cases h1 : inp.authority_key ≠ authority_id inp.program_id inp.swap_key ts.nonce
      · simp only [if_pos h1] at h; exact Except.noConfusion h
      · simp only [if_neg h1] at h
        cases hc : check_state_account inp.program_id inp.state_key with
        | error e => simp only [hc] at h; exact Except.noConfusion h
        | ok a =>
          simp only [hc] at h
          by_cases h2 : (inp.state_data.getD zeroProgramState).is_initialized = false
          · simp only [if_pos h2] at h; exact Except.noConfusion h
          · simp only [if_neg h2] at h
            by_cases h3 : ¬(inp.swap_source.key = ts.token_a ∨
                inp.swap_source.key = ts.token_b)
            · simp only [if_pos h3] at h; exact Except.noConfusion h
            · simp only [if_neg h3] at h
              by_cases h4 : ¬(inp.swap_destination.key = ts.token_a ∨
                  inp.swap_destination.key = ts.token_b)
              · simp only [if_pos h4] at h; exact Except.noConfusion h
              · simp only [if_neg h4] at h
                by_cases h5 : inp.swap_source.key = inp.swap_destination.key
                · simp only [if_pos h5] at h; exact Except.noConfusion h
                · simp only [if_neg h5] at h
                  by_cases h6 : inp.swap_source.key = inp.source_key
                  · simp only [if_pos h6] at h; exact Except.noConfusion h
                  · simp only [if_neg h6] at h
                    by_cases h7 : inp.swap_destination.key = inp.destination_key
                    · simp only [if_pos h7] at h; exact Except.noConfusion h
                    · simp only [if_neg h7] at h
                      by_cases h8 : inp.pool_mint_key ≠ ts.pool_mint
                      · simp only [if_pos h8] at h; exact Except.noConfusion h
                      · simp only [if_neg h8] at h
                        by_cases h9 : inp.token_program_key ≠ ts.token_program_id
                        · simp only [if_pos h9] at h; exact Except.noConfusion h
                        · simp only [if_neg h9] at h
                          cases hsa : unpack_token_account inp.swap_source ts.token_program_id with
                          | error e => simp only [hsa] at h; exact Except.noConfusion h
                          | ok source_account =>
                            simp only [hsa] at h
                            cases hda : unpack_token_account inp.swap_destination ts.token_program_id with
                            | error e => simp only [hda] at h; exact Except.noConfusion h
                            | ok dest_account =>
                              simp only [hda] at h
                              by_cases hA : (inp.state_data.getD zeroProgramState).fee_owner ≠ inp.fixed_fee_wallet_key
                              · simp only [if_pos hA] at h; exact Except.noConfusion h
                              · simp only [if_neg hA] at h
                                by_cases hB : WSOL_MINT_ADDRESS ≠ source_account.mint
                                · simp only [if_pos hB] at h
                                  cases hfa : unpack_token_account inp.fixed_fee_account ts.token_program_id with
                                  | error e => simp only [hfa] at h; exact Except.noConfusion h
                                  | ok fee_account =>
                                    simp only [hfa] at h
                                    by_cases hC : (inp.state_data.getD zeroProgramState).fee_owner ≠ fee_account.owner ∨
                                        source_account.mint ≠ fee_account.mint
                                    · simp only [if_pos hC] at h; exact Except.noConfusion h
                                    · simp only [if_neg hC] at h
                                      injection h with h
                                      subst h
                                      exact ⟨rfl, not_not.mp h3, rfl⟩
                                · simp only [if_neg hB] at h
                                  injection h with h
                                  subst h
                                  exact ⟨rfl, not_not.mp h3, rfl⟩

/-- A concrete initialized pool record used by the swap and withdraw
scenarios. -/
def poolRecBase : SwapV1 :=
  { is_initialized := true
    nonce := 1
    amm_id := "amm"
    dex_program_id := "dex"
    market_id := "mkt"
    token_program_id := "tok"
    token_a := "poolA"
    token_b := "poolB"
    pool_mint := "lpmint"
    token_a_mint := "mintA"
    token_b_mint := "mintB" }

/-- A concrete initialized global state used by the swap and withdraw
scenarios. -/
def stateRecBase : ProgramState :=
  { is_initialized := true
    initial_supply := INITIAL_SWAP_POOL_AMOUNT
    state_owner := "gov"
    fee_owner := "feeOwner"
    fees := FEES
    swap_curve := { curve_type := .ConstantProduct, calculator := .constantProduct } }

/-- The pool's token A vault with a 1,000,000 balance. -/
def poolAAccount : TokenAccount :=
  { mint := "mintA"
    owner := authority_id "prog" "swap" 1
    amount := 1000000
    delegate := none
    close_authority := none
    is_frozen := false }

/-- The pool's token B vault with a 1,000,000 balance. -/
def poolBAccount : TokenAccount :=
  { mint := "mintB"
    owner := authority_id "prog" "swap" 1
    amount := 1000000
    delegate := none
    close_authority := none
    is_frozen := false }

/-- A concrete swap invocation: 1,000 of token A into the 1,000,000 /
1,000,000 pool, minimum output 900. -/
def swapInputBase : SwapInput :=
  { program_id := "prog"
    amount_in := 1000
    minimum_amount_out := 900
    swap_key := "swap"
    swap_owner := "prog"
    swap_data := some poolRecBase
    authority_key := authority_id "prog" "swap" 1
    user_transfer_authority_key := "userAuth"
    state_key := find_program_address AMM_STATE_SEED "prog"
    state_data := some stateRecBase
    source_key := "userA"
    swap_source := { key := "poolA", owner := "tok", data := some poolAAccount }
    swap_destination := { key := "poolB", owner := "tok", data := some poolBAccount }
    destination_key := "userB"
    pool_mint_key := "lpmint"
    fixed_fee_account :=
      { key := "feeAcc", owner := "tok"
        data := some { mint := "mintA", owner := "feeOwner", amount := 0,
                       delegate := none, close_authority := none, is_frozen := false } }
    fixed_fee_wallet_key := "feeOwner"
    token_program_key := "tok" }

/-- The context `swapPrecheck` resolves for `swapInputBase`. -/
def swapCtxBase : SwapCtx :=
  { token_swap := poolRecBase
    state := stateRecBase
    source_account := poolAAccount
    dest_account := poolBAccount
    trade_direction := .AtoB }

/-- The curve result for `swapInputBase`: fee 2, net input 998, output
998. -/
def tradeResultBase : TradeResult :=
  { source_amount_swapped := 1000
    destination_amount_swapped := 998
    owner_fee := 2
    new_swap_source_amount := 1000998
    new_swap_destination_amount := 999002 }

/-- Shared lemma: once the curve result of a swap meets the slippage bound,
the handler never returns the slippage error, and a successful run issues
exactly the three mutations with the curve's own amounts. -/
theorem process_swap_after_curve (inp : SwapInput) (ctx : SwapCtx) (r : TradeResult)
    (hpre : swapPrecheck inp = .ok ctx)
    (hr : ctx.state.swap_curve.calculator.swap inp.amount_in
      ctx.source_account.amount ctx.dest_account.amount
      ctx.trade_direction ctx.state.fees = some r)
    (hge : inp.minimum_amount_out ≤ r.destination_amount_swapped) :
    (process_swap inp).result ≠ .error (.amm .ExceededSlippage) ∧
    ((process_swap inp).result = .ok () →
      (process_swap inp).trace =
        Action.transfer inp.source_key inp.swap_source.key
          (wrappingSub128 r.source_amount_swapped r.owner_fee) ::
        (if ctx.source_account.mint = WSOL_MINT_ADDRESS
         then [Action.nativeTransfer inp.user_transfer_authority_key
                 inp.fixed_fee_wallet_key r.owner_fee]
         else [Action.transfer inp.source_key inp.fixed_fee_account.key
                 r.owner_fee]) ++
        [Action.transfer inp.swap_destination.key inp.destination_key
          r.destination_amount_swapped]) := by
  have hnl : ¬(r.destination_amount_swapped < inp.minimum_amount_out) :=
    not_lt.mpr hge
  simp only [process_swap, hpre, hr, if_neg hnl]
  cases h1 : to_u64 (wrappingSub128 r.source_amount_swapped r.owner_fee) with
  | error e =>
      have he := to_u64_error h1
      subst he
      exact ⟨by simp, by simp⟩
  | ok net =>
      have hnet := to_u64_ok h1
      subst hnet
      cases h2 : to_u64 r.owner_fee with
      | error e =>
          have he := to_u64_error h2
          subst he
          exact ⟨by simp, by simp⟩
      | ok fee64 =>
          have hfee := to_u64_ok h2
          subst hfee
          cases h3 : to_u64 r.destination_amount_swapped with
          | error e =>
              have he := to_u64_error h3
              subst he
              exact ⟨by simp, by simp⟩
          | ok dest64 =>
              have hdest := to_u64_ok h3
              subst hdest
              exact ⟨by simp, fun _ => by simp⟩

/-- C5: once the curve computation of a swap succeeds, a computed
destination amount strictly below the caller's `minimum_amount_out` yields
exactly the slippage error with no ledger mutation; otherwise the slippage
gate passes (the result is never the slippage error) and, when the
invocation succeeds, the issued amounts are exactly the curve's outputs,
never adjusted to fit the bound. -/
theorem claim_C5 (inp : SwapInput) (ctx : SwapCtx) (r : TradeResult)
    (hpre : swapPrecheck inp = .ok ctx)
    (hr : ctx.state.swap_curve.calculator.swap inp.amount_in
      ctx.source_account.amount ctx.dest_account.amount
      ctx.trade_direction ctx.state.fees = some r) :
    (r.destination_amount_swapped < inp.minimum_amount_out →
      process_swap inp = ⟨.error (.amm .ExceededSlippage), []⟩)
    ∧ (inp.minimum_amount_out ≤ r.destination_amount_swapped →
        (process_swap inp).result ≠ .error (.amm .ExceededSlippage) ∧
        ((process_swap inp).result = .ok () →
          (process_swap inp).trace =
            Action.transfer inp.source_key inp.swap_source.key
              (wrappingSub128 r.source_amount_swapped r.owner_fee) ::
            (if ctx.source_account.mint = WSOL_MINT_ADDRESS
             then [Action.nativeTransfer inp.user_transfer_authority_key
                     inp.fixed_fee_wallet_key r.owner_fee]
             else [Action.transfer inp.source_key inp.fixed_fee_account.key
                     r.owner_fee]) ++
            [Action.transfer inp.swap_destination.key inp.destination_key
              r.destination_amount_swapped])) := by
  constructor
  · intro hlt
    simp only [process_swap, hpre, hr, if_pos hlt]
  · intro hge
    exact process_swap_after_curve inp ctx r hpre hr hge

/-- Witness for C5: the concrete 1,000-in swap against the million/million
pool passes its slippage bound of 900 and does not fail with the slippage
error. -/
theorem claim_C5_witness :
    (process_swap swapInputBase).result ≠ .error (.amm .ExceededSlippage) :=
  ((claim_C5 swapInputBase swapCtxBase tradeResultBase
      (by decide) (by decide)).2 (by decide)).1

/-- C6: when the curve's swap computation signals no trade (`None`), the
handler returns the zero-trading-tokens error - a distinct variant from the
slippage error - and issues no ledger mutation; and for the (spec-modelled)
constant-product curve the no-trade signal indeed covers `amount_in = 0`,
while any successful computation has a non-zero destination amount. -/
theorem claim_C6 :
    (∀ (inp : SwapInput) (ctx : SwapCtx),
      swapPrecheck inp = .ok ctx →
      ctx.state.swap_curve.calculator.swap inp.amount_in
        ctx.source_account.amount ctx.dest_account.amount
        ctx.trade_direction ctx.state.fees = none →
      process_swap inp = ⟨.error (.amm .ZeroTradingTokens), []⟩)
    ∧ AmmError.ZeroTradingTokens ≠ AmmError.ExceededSlippage
    ∧ (∀ rin rout dir fees,
        CurveCalculator.swap .constantProduct 0 rin rout dir fees = none)
    ∧ (∀ a rin rout dir fees r,
        CurveCalculator.swap .constantProduct a rin rout dir fees = some r →
        r.destination_amount_swapped ≠ 0) := by
  refine ⟨?_, by decide, ?_, ?_⟩
  · intro inp ctx hpre hnone
    simp only [process_swap, hpre, hnone]
  · intro rin rout dir fees
    simp only [CurveCalculator.swap]
    split
    · rfl
    · simp
  · intro a rin rout dir fees r h
    simp only [CurveCalculator.swap] at h
    split at h
    · exact Option.noConfusion h
    · split at h
      · exact Option.noConfusion h
      · split at h
        · exact Option.noConfusion h
        · rename_i hdest
          injection h with h
          subst h
          simpa using hdest

/-- The base swap invocation with `amount_in = 0`: the curve signals no
trade. -/
def swapInputZero : SwapInput :=
  { swapInputBase with amount_in := 0, minimum_amount_out := 0 }

/-- Witness for C6: the concrete zero-amount swap returns the
zero-trading-tokens error with an empty mutation trace. -/
theorem claim_C6_witness :
    process_swap swapInputZero = ⟨.error (.amm .ZeroTradingTokens), []⟩ :=
  claim_C6.1 swapInputZero swapCtxBase (by decide) (by decide)

/-- C7: the trade direction of a swap is a function of which pool-side
account the supplied swap-source key equals - A-to-B exactly on a token A
match, B-to-A otherwise (`SwapInput` carries no caller direction field at
all); every successfully prechecked invocation uses exactly that inferred
direction and matched one of the two pool accounts; and an invocation whose
swap-source key matches neither pool account is rejected with no ledger
mutation. -/
theorem claim_C7 :
    (∀ source_key token_a token_b : Pubkey,
      (source_key = token_a →
        swap_trade_direction source_key token_a token_b = .AtoB) ∧
      (source_key ≠ token_a →
        swap_trade_direction source_key token_a token_b = .BtoA))
    ∧ (∀ (inp : SwapInput) (ctx : SwapCtx), swapPrecheck inp = .ok ctx →
        ctx.trade_direction = swap_trade_direction inp.swap_source.key
          ctx.token_swap.token_a ctx.token_swap.token_b ∧
        (inp.swap_source.key = ctx.token_swap.token_a ∨
         inp.swap_source.key = ctx.token_swap.token_b))
    ∧ (∀ (inp : SwapInput) (ts : SwapV1), inp.swap_data = some ts →
        inp.swap_source.key ≠ ts.token_a → inp.swap_source.key ≠ ts.token_b →
        (process_swap inp).result ≠ .ok () ∧ (process_swap inp).trace = []) := by
  refine ⟨?_, ?_, ?_⟩
  · intro source_key token_a token_b
    constructor
    · intro h
      simp [swap_trade_direction, h]
    · intro h
      simp [swap_trade_direction, h]
  · intro inp ctx hpre
    have h := swapPrecheck_ok_inv hpre
    exact ⟨h.2.2, h.2.1⟩
  · intro inp ts hdata hna hnb
    cases hres : swapPrecheck inp with
    | error e => simp [process_swap, hres]
    | ok ctx =>
      exfalso
      have h := swapPrecheck_ok_inv hres
      rw [hdata] at h
      have hts : ts = ctx.token_swap := Option.some.inj h.1
      rcases h.2.1 with hm | hm
      · exact hna (hts ▸ hm)
      · exact hnb (hts ▸ hm)

/-- The base swap invocation with a swap-source account key matching
neither pool vault. -/
def swapInputBadSource : SwapInput :=
  { swapInputBase with
      swap_source := { key := "elsewhere", owner := "tok", data := some poolAAccount } }

/-- Witness for C7: a concrete invocation whose swap-source key matches
neither pool account is rejected and issues no mutation, and a matching key
infers the A-to-B direction. -/
theorem claim_C7_witness :
    ((process_swap swapInputBadSource).result ≠ .ok () ∧
      (process_swap swapInputBadSource).trace = []) ∧
    swap_trade_direction "poolA" "poolA" "poolB" = .AtoB :=
  ⟨claim_C7.2.2 swapInputBadSource poolRecBase (by decide) (by decide) (by decide),
   (claim_C7.1 "poolA" "poolA" "poolB").1 rfl⟩

/-- C10: under the precondition `owner_fee ≤ source_amount_swapped` (with
the swapped amount in u128 range), the unchecked u128 subtraction of
processor.rs line 642 does not wrap; on a successful swap the caller is
debited `source_amount_swapped - owner_fee` into the pool's source vault
plus `owner_fee` to the fee recipient - a native transfer exactly when the
source mint is wrapped SOL, a token transfer otherwise - for a total debit
of exactly `source_amount_swapped`. -/
theorem claim_C10 (inp : SwapInput) (ctx : SwapCtx) (r : TradeResult)
    (hpre : swapPrecheck inp = .ok ctx)
    (hr : ctx.state.swap_curve.calculator.swap inp.amount_in
      ctx.source_account.amount ctx.dest_account.amount
      ctx.trade_direction ctx.state.fees = some r)
    (hfee : r.owner_fee ≤ r.source_amount_swapped)
    (hbound : r.source_amount_swapped < 2 ^ 128) :
    wrappingSub128 r.source_amount_swapped r.owner_fee =
      r.source_amount_swapped - r.owner_fee
    ∧ (r.source_amount_swapped - r.owner_fee) + r.owner_fee =
        r.source_amount_swapped
    ∧ ((process_swap inp).result = .ok () →
        (process_swap inp).trace =
          Action.transfer inp.source_key inp.swap_source.key
            (r.source_amount_swapped - r.owner_fee) ::
          (if ctx.source_account.mint = WSOL_MINT_ADDRESS
           then [Action.nativeTransfer inp.user_transfer_authority_key
                   inp.fixed_fee_wallet_key r.owner_fee]
           else [Action.transfer inp.source_key inp.fixed_fee_account.key
                   r.owner_fee]) ++
          [Action.transfer inp.swap_destination.key inp.destination_key
            r.destination_amount_swapped]) := by
  have hw : wrappingSub128 r.source_amount_swapped r.owner_fee =
      r.source_amount_swapped - r.owner_fee := wrappingSub128_of_le hfee hbound
  refine ⟨hw, by omega, ?_⟩
  by_cases hsl : r.destination_amount_swapped < inp.minimum_amount_out
  · intro hok
    simp only [process_swap, hpre, hr, if_pos hsl] at hok
    exact absurd hok (by simp)
  · have h := (process_swap_after_curve inp ctx r hpre hr (not_lt.mp hsl)).2
    rw [hw] at h
    exact h

/-- Witness for C10: the concrete 1,000-in swap with fee 2 does not wrap
and totals exactly the swapped source amount. -/
theorem claim_C10_witness :
    wrappingSub128 tradeResultBase.source_amount_swapped tradeResultBase.owner_fee =
      tradeResultBase.source_amount_swapped - tradeResultBase.owner_fee ∧
    (tradeResultBase.source_amount_swapped - tradeResultBase.owner_fee) +
        tradeResultBase.owner_fee = tradeResultBase.source_amount_swapped := by
  have h := claim_C10 swapInputBase swapCtxBase tradeResultBase
    (by decide) (by decide) (by decide) (by decide)
  exact ⟨h.1, h.2.1⟩

/-- `SwapVersion::is_initialized` on raw account data: empty or zeroed data
is uninitialized. -/
def swapIsInitialized (d : Option SwapV1) : Bool :=
  match d with
  | some s => s.is_initialized
  | none => false

/-- Input record of `Processor::process_initialize` (processor.rs lines
378-399): the nonce parameter plus the ordered account list. -/
structure InitInput where
  program_id : Pubkey
  nonce : Nat
  swap_key : Pubkey
  swap_data : Option SwapV1
  authority_key : Pubkey
  state_key : Pubkey
  state_data : Option ProgramState
  amm_id_key : Pubkey
  token_a : AccountRec TokenAccount
  token_b : AccountRec TokenAccount
  pool_mint : AccountRec MintRec
  destination : AccountRec TokenAccount
  market_key : Pubkey
  market_owner : Pubkey
  token_program_key : Pubkey
  dex_program_key : Pubkey
  cur_state_owner_key : Pubkey
  cur_state_owner_is_signer : Bool
deriving DecidableEq

/-- The validation prefix of `Processor::process_initialize` (processor.rs
lines 401-481), every check in source order; no mutation is issued here.
On success it returns the unpacked token A, token B and destination
accounts and the pool mint. -/
def initPrecheck (inp : InitInput) :
    Except PErr (TokenAccount × TokenAccount × TokenAccount × MintRec) :=
  if swapIsInitialized inp.swap_data then .error (.amm .AlreadyInUse) else
  if inp.authority_key ≠ authority_id inp.program_id inp.swap_key inp.nonce
  then .error (.amm .InvalidProgramAddress) else
  match check_state_account inp.program_id inp.state_key with
  | .error e => .error e
  | .ok _ =>
  if (inp.state_data.getD zeroProgramState).is_initialized = false
  then .error (.amm .NotInitializedState) else
  if inp.cur_state_owner_is_signer = false then .error (.amm .InvalidSigner) else
  if inp.cur_state_owner_key ≠ (inp.state_data.getD zeroProgramState).state_owner
  then .error (.amm .InvalidOwner) else
  match unpack_token_account inp.token_a inp.token_program_key with
  | .error e => .error (.amm e)
  | .ok token_a =>
  match unpack_token_account inp.token_b inp.token_program_key with
  | .error e => .error (.amm e)
  | .ok token_b =>
  match unpack_token_account inp.destination inp.token_program_key with
  | .error e => .error (.amm e)
  | .ok destination =>
  match unpack_mint inp.pool_mint inp.token_program_key with
  | .error e => .error (.amm e)
  | .ok pool_mint =>
  if inp.authority_key ≠ token_a.owner then .error (.amm .InvalidOwner) else
  if inp.authority_key ≠ token_b.owner then .error (.amm .InvalidOwner) else
  if inp.authority_key = destination.owner then .error (.amm .InvalidOutputOwner) else
  if some inp.authority_key ≠ pool_mint.mint_authority then .error (.amm .InvalidOwner) else
  if token_a.mint = token_b.mint then .error (.amm .RepeatedMint) else
  match ((inp.state_data.getD zeroProgramState).swap_curve.calculator).validate_supply
      token_a.amount token_b.amount with
  | .error e => .error e
  | .ok _ =>
  if token_a.delegate.isSome then .error (.amm .InvalidDelegate) else
  if token_b.delegate.isSome then .error (.amm .InvalidDelegate) else
  if token_a.is_frozen then .error (.amm .InvalidFreezeAuthority) else
  if token_b.is_frozen then .error (.amm .InvalidFreezeAuthority) else
  if token_a.close_authority.isSome then .error (.amm .InvalidCloseAuthority) else
  if token_b.close_authority.isSome then .error (.amm .InvalidCloseAuthority) else
  if pool_mint.decimals ≠ LP_MINT_DECIMALS then .error (.amm .InvalidDecimals) else
  if pool_mint.supply ≠ 0 then .error (.amm .InvalidSupply) else
  if pool_mint.freeze_authority.isSome then .error (.amm .InvalidFreezeAuthority) else
  if inp.market_owner ≠ inp.dex_program_key
  then .error (.amm .IncorrectMarketOwnerAccount) else
  .ok (token_a, token_b, destination, pool_mint)

/-- `Processor::process_initialize` (processor.rs lines 378-512): after the
validation prefix, mint the configured initial liquidity supply to the
destination, then persist the pool record. -/
def process_initialize (inp : InitInput) : HOut :=
  match initPrecheck inp with
  | .error e => ⟨.error e, []⟩
  | .ok (token_a, token_b, _destination, _pool_mint) =>
    ⟨.ok (),
     [.mintTo inp.pool_mint.key inp.destination.key
        (inp.state_data.getD zeroProgramState).initial_supply,
      .packSwap
        { is_initialized := true
          nonce := inp.nonce
          amm_id := inp.amm_id_key
          dex_program_id := inp.dex_program_key
          market_id := inp.market_key
          token_program_id := inp.token_program_key
          token_a := inp.token_a.key
          token_b := inp.token_b.key
          pool_mint := inp.pool_mint.key
          token_a_mint := token_a.mint
          token_b_mint := token_b.mint }]⟩

/-- A successful `unpack_token_account` means the account is owned by the
token program and its data parsed to the returned record. -/
theorem unpack_token_account_ok {info : AccountRec TokenAccount} {k : Pubkey}
    {a : TokenAccount} (h : unpack_token_account info k = .ok a) :
    info.owner = k ∧ info.data = some a := by
  unfold unpack_token_account at h
  split at h
  · exact Except.noConfusion h
  · rename_i hown
    cases hd : info.data with
    | none => rw [hd] at h; exact Except.noConfusion h
    | some x =>
        rw [hd] at h
        have hx : x = a := by simpa using h
        exact ⟨not_not.mp hown, congrArg some hx⟩

/-- A successful `unpack_mint` means the account is owned by the token
program and its data parsed to the returned record. -/
theorem unpack_mint_ok {info : AccountRec MintRec} {k : Pubkey}
    {m : MintRec} (h : unpack_mint info k = .ok m) :
    info.owner = k ∧ info.data = some m := by
  unfold unpack_mint at h
  split at h
  · exact Except.noConfusion h
  · rename_i hown
    cases hd : info.data with
    | none => rw [hd] at h; exact Except.noConfusion h
    | some x =>
        rw [hd] at h
        have hx : x = m := by simpa using h
        exact ⟨not_not.mp hown, congrArg some hx⟩

/-- Inversion of a successful initialize precheck: every precondition of
pool initialization held on the inputs. -/
theorem initPrecheck_ok_inv {inp : InitInput} {ta tb dst : TokenAccount} {pm : MintRec}
    (h : initPrecheck inp = .ok (ta, tb, dst, pm)) :
    swapIsInitialized inp.swap_data = false ∧
    inp.authority_key = authority_id inp.program_id inp.swap_key inp.nonce ∧
    (∃ st, inp.state_data = some st ∧ st.is_initialized = true ∧
      inp.cur_state_owner_is_signer = true ∧
      inp.cur_state_owner_key = st.state_owner) ∧
    inp.token_a.data = some ta ∧ inp.token_b.data = some tb ∧
    inp.destination.data = some dst ∧ inp.pool_mint.data = some pm ∧
    ta.mint ≠ tb.mint ∧
    ta.delegate = none ∧ tb.delegate = none ∧
    ta.is_frozen = false ∧ tb.is_frozen = false ∧
    ta.close_authority = none ∧ tb.close_authority = none ∧
    ta.owner = inp.authority_key ∧ tb.owner = inp.authority_key ∧
    dst.owner ≠ inp.authority_key ∧
    pm.mint_authority = some inp.authority_key ∧
    pm.supply = 0 ∧ pm.decimals = LP_MINT_DECIMALS ∧
    pm.freeze_authority = none := by
  unfold initPrecheck at h
  by_cases h0 : swapIsInitialized inp.swap_data = true
  · simp only [if_pos h0] at h; exact Except.noConfusion h
  · simp only [if_neg h0] at h
    by_cases h1 : inp.authority_key ≠ authority_id inp.program_id inp.swap_key inp.nonce
    · simp only [if_pos h1] at h; exact Except.noConfusion h
    · simp only [if_neg h1] at h
      cases hc : check_state_account inp.program_id inp.state_key with
      | error e => simp only [hc] at h; exact Except.noConfusion h
      | ok a =>
      simp only [hc] at h
      by_cases h2 : (inp.state_data.getD zeroProgramState).is_initialized = false
      · simp only [if_pos h2] at h; exact Except.noConfusion h
      · simp only [if_neg h2] at h
        by_cases h3 : inp.cur_state_owner_is_signer = false
        · simp only [if_pos h3] at h; exact Except.noConfusion h
        · simp only [if_neg h3] at h
          by_cases h4 : inp.cur_state_owner_key ≠ (inp.state_data.getD zeroProgramState).state_owner
          · simp only [if_pos h4] at h; exact Except.noConfusion h
          · simp only [if_neg h4] at h
            cases ha : unpack_token_account inp.token_a inp.token_program_key with
            | error e => simp only [ha] at h; exact Except.noConfusion h
            | ok token_a =>
            simp only [ha] at h
            cases hb : unpack_token_account inp.token_b inp.token_program_key with
            | error e => simp only [hb] at h; exact Except.noConfusion h
            | ok token_b =>
            simp only [hb] at h
            cases hdst : unpack_token_account inp.destination inp.token_program_key with
            | error e => simp only [hdst] at h; exact Except.noConfusion h
            | ok destination =>
            simp only [hdst] at h
            cases hpm : unpack_mint inp.pool_mint inp.token_program_key with
            | error e => simp only [hpm] at h; exact Except.noConfusion h
            | ok pool_mint =>
            simp only [hpm] at h
            by_cases h5 : inp.authority_key ≠ token_a.owner
            · simp only [if_pos h5] at h; exact Except.noConfusion h
            · simp only [if_neg h5] at h
              by_cases h6 : inp.authority_key ≠ token_b.owner
              · simp only [if_pos h6] at h; exact Except.noConfusion h
              · simp only [if_neg h6] at h
                by_cases h7 : inp.authority_key = destination.owner
                · simp only [if_pos h7] at h; exact Except.noConfusion h
                · simp only [if_neg h7] at h
                  by_cases h8 : some inp.authority_key ≠ pool_mint.mint_authority
                  · simp only [if_pos h8] at h; exact Except.noConfusion h
                  · simp only [if_neg h8] at h
                    by_cases h9 : token_a.mint = token_b.mint
                    · simp only [if_pos h9] at h; exact Except.noConfusion h
                    · simp only [if_neg h9] at h
                      cases hvs : ((inp.state_data.getD zeroProgramState).swap_curve.calculator).validate_supply token_a.amount token_b.amount with
                      | error e => simp only [hvs] at h; exact Except.noConfusion h
                      | ok b =>
                      simp only [hvs] at h
                      by_cases hA : token_a.delegate.isSome = true
                      · simp only [if_pos hA] at h; exact Except.noConfusion h
                      · simp only [if_neg hA] at h
                        by_cases hB : token_b.delegate.isSome = true
                        · simp only [if_pos hB] at h; exact Except.noConfusion h
                        · simp only [if_neg hB] at h
                          by_cases hC : token_a.is_frozen = true
                          · simp only [if_pos hC] at h; exact Except.noConfusion h
                          · simp only [if_neg hC] at h
                            by_cases hD : token_b.is_frozen = true
                            · simp only [if_pos hD] at h; exact Except.noConfusion h
                            · simp only [if_neg hD] at h
                              by_cases hE : token_a.close_authority.isSome = true
                              · simp only [if_pos hE] at h; exact Except.noConfusion h
                              · simp only [if_neg hE] at h
                                by_cases hF : token_b.close_authority.isSome = true
                                · simp only [if_pos hF] at h; exact Except.noConfusion h
                                · simp only [if_neg hF] at h
                                  by_cases hG : pool_mint.decimals ≠ LP_MINT_DECIMALS
                                  · simp only [if_pos hG] at h
                                    exact Except.noConfusion h
                                  · simp only [if_neg hG] at h
                                    by_cases hH : pool_mint.supply ≠ 0
                                    · simp only [if_pos hH] at h; exact Except.noConfusion h
                                    · simp only [if_neg hH] at h
                                      by_cases hI : pool_mint.freeze_authority.isSome = true
                                      · simp only [if_pos hI] at h; exact Except.noConfusion h
                                      · simp only [if_neg hI] at h
                                        by_cases hJ : inp.market_owner ≠ inp.dex_program_key
                                        · simp only [if_pos hJ] at h; exact Except.noConfusion h
                                        · simp only [if_neg hJ] at h
                                          injection h with h
                                          obtain ⟨rfl, rfl, rfl, rfl⟩ :
                                              token_a = ta ∧ token_b = tb ∧
                                              destination = dst ∧ pool_mint = pm := by
                                            simpa [Prod.ext_iff] using h
                                          refine ⟨by simpa using h0, not_not.mp h1, ?_, ?_⟩
                                          · cases hsd : inp.state_data with
                                            | none =>
                                                exfalso
                                                rw [hsd] at h2
                                                simp [zeroProgramState] at h2
                                            | some st =>
                                                refine ⟨st, rfl, ?_, by simpa using h3, ?_⟩
                                                · rw [hsd] at h2
                                                  simpa using h2
                                                · have h4x := not_not.mp h4
                                                  rw [hsd] at h4x
                                                  simpa using h4x
                                          · refine ⟨(unpack_token_account_ok ha).2,
                                              (unpack_token_account_ok hb).2,
                                              (unpack_token_account_ok hdst).2,
                                              (unpack_mint_ok hpm).2,
                                              h9, ?_, ?_, ?_, ?_, ?_, ?_,
                                              (not_not.mp h5).symm, (not_not.mp h6).symm,
                                              fun hcon => h7 hcon.symm,
                                              (not_not.mp h8).symm,
                                              not_not.mp hH, not_not.mp hG, ?_⟩
                                            · simpa using hA
                                            · simpa using hB
                                            · simpa using hC
                                            · simpa using hD
                                            · simpa using hE
                                            · simpa using hF
                                            · simpa using hI

/-- C4: pool initialization succeeds only when every stated precondition
holds simultaneously (pool record uninitialized, supplied authority equal
to the derived authority, global state initialized, signing caller equal to
the state owner, distinct pooled mints, no delegates, not frozen, no close
authorities, pool vaults owned by the derived authority, destination not
owned by the derived authority, liquidity mint with the derived mint
authority, zero supply, the expected decimals and no freeze authority); any
failed precondition returns an error before any mint is issued or any
record persisted. -/
theorem claim_C4 (inp : InitInput) :
    (∀ e, ( process_initialize inp).result = .error e →
      ( process_initialize inp).trace = [])
    ∧ (( process_initialize inp).result = .ok () →
      swapIsInitialized inp.swap_data = false ∧
      inp.authority_key = authority_id inp.program_id inp.swap_key inp.nonce ∧
      (∃ st, inp.state_data = some st ∧ st.is_initialized = true ∧
        inp.cur_state_owner_is_signer = true ∧
        inp.cur_state_owner_key = st.state_owner) ∧
      (∃ ta tb dst pm,
        inp.token_a.data = some ta ∧ inp.token_b.data = some tb ∧
        inp.destination.data = some dst ∧ inp.pool_mint.data = some pm ∧
        ta.mint ≠ tb.mint ∧
        ta.delegate = none ∧ tb.delegate = none ∧
        ta.is_frozen = false ∧ tb.is_frozen = false ∧
        ta.close_authority = none ∧ tb.close_authority = none ∧
        ta.owner = inp.authority_key ∧ tb.owner = inp.authority_key ∧
        dst.owner ≠ inp.authority_key ∧
        pm.mint_authority = some inp.authority_key ∧
        pm.supply = 0 ∧ pm.decimals = LP_MINT_DECIMALS ∧
        pm.freeze_authority = none)) := by
  constructor
  · intro e he
    cases hres : initPrecheck inp with
    | error e2 => simp [ process_initialize, hres]
    | ok ctx =>
        obtain ⟨ta, tb, dst, pm⟩ := ctx
        simp [ process_initialize, hres] at he
  · intro hok
    cases hres : initPrecheck inp with
    | error e2 => simp [ process_initialize, hres] at hok
    | ok ctx =>
        obtain ⟨ta, tb, dst, pm⟩ := ctx
        have h := initPrecheck_ok_inv hres
        exact ⟨h.1, h.2.1, h.2.2.1,
          ⟨ta, tb, dst, pm, h.2.2.2⟩⟩

/-- A concrete valid pool-initialization invocation. -/
def initInputBase : InitInput :=
  { program_id := "prog"
    nonce := 1
    swap_key := "swap"
    swap_data := none
    authority_key := authority_id "prog" "swap" 1
    state_key := find_program_address AMM_STATE_SEED "prog"
    state_data := some stateRecBase
    amm_id_key := "amm"
    token_a := { key := "poolA", owner := "tok", data := some poolAAccount }
    token_b := { key := "poolB", owner := "tok", data := some poolBAccount }
    pool_mint :=
      { key := "lpmint", owner := "tok"
        data := some { mint_authority := some (authority_id "prog" "swap" 1)
                       supply := 0, decimals := 8, freeze_authority := none } }
    destination :=
      { key := "userLP", owner := "tok"
        data := some { mint := "lpmint", owner := "user", amount := 0,
                       delegate := none, close_authority := none, is_frozen := false } }
    market_key := "mkt"
    market_owner := "dex"
    token_program_key := "tok"
    dex_program_key := "dex"
    cur_state_owner_key := "gov"
    cur_state_owner_is_signer := true }

/-- Witness for C4: the concrete valid initialization succeeds, and the
theorem yields its preconditions at that input. -/
theorem claim_C4_witness :
    ( process_initialize initInputBase).result = .ok () ∧
    swapIsInitialized initInputBase.swap_data = false ∧
    initInputBase.authority_key =
      authority_id initInputBase.program_id initInputBase.swap_key initInputBase.nonce := by
  have h := (claim_C4 initInputBase).2 (by decide)
  exact ⟨by decide, h.1, h.2.1⟩

/-- `Processor::check_accounts` (processor.rs lines 234-277). -/
def check_accounts (token_swap : SwapV1) (program_id : Pubkey)
    (swap_key swap_owner authority_key token_a_key token_b_key pool_mint_key
      token_program_key : Pubkey)
    (user_token_a_key user_token_b_key : Option Pubkey) : Except PErr Unit :=
  if swap_owner ≠ program_id then .error .incorrectProgramId else
  if authority_key ≠ authority_id program_id swap_key token_swap.nonce
  then .error (.amm .InvalidProgramAddress) else
  if token_a_key ≠ token_swap.token_a then .error (.amm .IncorrectSwapAccount) else
  if token_b_key ≠ token_swap.token_b then .error (.amm .IncorrectSwapAccount) else
  if pool_mint_key ≠ token_swap.pool_mint then .error (.amm .IncorrectPoolMint) else
  if token_program_key ≠ token_swap.token_program_id
  then .error (.amm .IncorrectTokenProgramId) else
  if user_token_a_key.any (fun k => token_a_key = k) then .error (.amm .InvalidInput) else
  if user_token_b_key.any (fun k => token_b_key = k) then .error (.amm .InvalidInput) else
  .ok ()

/-- Input record of `Processor::process_withdraw_all_token_types`
(processor.rs lines 807-826): scalar parameters plus the ordered account
list. -/
structure WithdrawInput where
  program_id : Pubkey
  pool_token_amount : Nat
  minimum_token_a_amount : Nat
  minimum_token_b_amount : Nat
  swap_key : Pubkey
  swap_owner : Pubkey
  swap_data : Option SwapV1
  authority_key : Pubkey
  user_transfer_authority_key : Pubkey
  state_key : Pubkey
  state_data : Option ProgramState
  pool_mint : AccountRec MintRec
  source_key : Pubkey
  token_a : AccountRec TokenAccount
  token_b : AccountRec TokenAccount
  dest_token_a_key : Pubkey
  dest_token_b_key : Pubkey
  token_program_key : Pubkey
deriving DecidableEq

/-- The resolved context once the account validation of
`process_withdraw_all_token_types` has passed (processor.rs lines 828-854). -/
structure WithdrawCtx where
  token_swap : SwapV1
  state : ProgramState
  token_a : TokenAccount
  token_b : TokenAccount
  pool_mint : MintRec
deriving DecidableEq

/-- The validation prefix of `process_withdraw_all_token_types`
(processor.rs lines 828-854): unpack the pool record, check the state
account, require the state initialized, run `check_accounts`, and unpack
the two vaults and the pool mint; no mutation is issued here. -/
def withdrawPrecheck (inp : WithdrawInput) : Except PErr WithdrawCtx :=
  match inp.swap_data with
  | none => .error .invalidAccountData
  | some token_swap =>
  match check_state_account inp.program_id inp.state_key with
  | .error e => .error e
  | .ok _ =>
  if (inp.state_data.getD zeroProgramState).is_initialized = false
  then .error (.amm .NotInitializedState) else
  match check_accounts token_swap inp.program_id inp.swap_key inp.swap_owner
      inp.authority_key inp.token_a.key inp.token_b.key inp.pool_mint.key
      inp.token_program_key (some inp.dest_token_a_key) (some inp.dest_token_b_key) with
  | .error e => .error e
  | .ok _ =>
  match unpack_token_account inp.token_a token_swap.token_program_id with
  | .error e => .error (.amm e)
  | .ok token_a =>
  match unpack_token_account inp.token_b token_swap.token_program_id with
  | .error e => .error (.amm e)
  | .ok token_b =>
  match unpack_mint inp.pool_mint token_swap.token_program_id with
  | .error e => .error (.amm e)
  | .ok pool_mint =>
  .ok ⟨token_swap, inp.state_data.getD zeroProgramState, token_a, token_b, pool_mint⟩

/-- `Processor::process_withdraw_all_token_types` (processor.rs lines
807-949).  The liquidity-provider withdraw fee is hard-coded to zero (line
858, original logic commented out), so its `checked_sub` can never fail and
is embedded as plain subtraction of zero.  The requested burn amount is
clamped to `pool_mint.supply - MIN_LP_SUPPLY` (an error when the supply is
already below the floor), converted through the curve, capped per side at
the vault balance, gated on slippage and per-side zero checks, and then the
burn and the (non-zero) transfers are issued. -/
def process_withdraw_all_token_types (inp : WithdrawInput) : HOut :=
  match withdrawPrecheck inp with
  | .error e => ⟨.error e, []⟩
  | .ok ctx =>
    match checked_sub ctx.pool_mint.supply MIN_LP_SUPPLY with
    | none => ⟨.error (.amm .CalculationFailure), []⟩
    | some max_pool_token_amount =>
    match ctx.state.swap_curve.calculator.pool_tokens_to_trading_tokens
        (min (inp.pool_token_amount - 0) max_pool_token_amount)
        ctx.pool_mint.supply ctx.token_a.amount ctx.token_b.amount .Floor with
    | none => ⟨.error (.amm .ZeroTradingTokens), []⟩
    | some results =>
    match to_u64 results.token_a_amount with
    | .error e => ⟨.error (.amm e), []⟩
    | .ok a64 =>
    if min ctx.token_a.amount a64 < inp.minimum_token_a_amount
    then ⟨.error (.amm .ExceededSlippage), []⟩ else
    if min ctx.token_a.amount a64 = 0 ∧ ctx.token_a.amount ≠ 0
    then ⟨.error (.amm .ZeroTradingTokens), []⟩ else
    match to_u64 results.token_b_amount with
    | .error e => ⟨.error (.amm e), []⟩
    | .ok b64 =>
    if min ctx.token_b.amount b64 < inp.minimum_token_b_amount
    then ⟨.error (.amm .ExceededSlippage), []⟩ else
    if min ctx.token_b.amount b64 = 0 ∧ ctx.token_b.amount ≠ 0
    then ⟨.error (.amm .ZeroTradingTokens), []⟩ else
    match to_u64 (min (inp.pool_token_amount - 0) max_pool_token_amount) with
    | .error e => ⟨.error (.amm e), []⟩
    | .ok burn64 =>
      ⟨.ok (),
       Action.burn inp.source_key inp.pool_mint.key burn64 ::
       ((if 0 < min ctx.token_a.amount a64
         then [Action.transfer inp.token_a.key inp.dest_token_a_key
                 (min ctx.token_a.amount a64)] else []) ++
        (if 0 < min ctx.token_b.amount b64
         then [Action.transfer inp.token_b.key inp.dest_token_b_key
                 (min ctx.token_b.amount b64)] else []))⟩

/-- A successful `checked_sub` returns the difference and implies the
no-underflow bound. -/
theorem checked_sub_some {a b c : Nat} (h : checked_sub a b = some c) :
    c = a - b ∧ b ≤ a := by
  unfold checked_sub at h
  split at h
  · exact ⟨(Option.some.inj h).symm, by assumption⟩
  · exact Option.noConfusion h

/-- The liquidity mint record at a given supply. -/
def lpMintRec (supply : Nat) : MintRec :=
  { mint_authority := some (authority_id "prog" "swap" 1)
    supply := supply
    decimals := 8
    freeze_authority := none }

/-- A concrete withdraw invocation: burn 50,000 liquidity tokens of a
200,000 supply against the million/million pool. -/
def wdInputBase : WithdrawInput :=
  { program_id := "prog"
    pool_token_amount := 50000
    minimum_token_a_amount := 0
    minimum_token_b_amount := 0
    swap_key := "swap"
    swap_owner := "prog"
    swap_data := some poolRecBase
    authority_key := authority_id "prog" "swap" 1
    user_transfer_authority_key := "userAuth"
    state_key := find_program_address AMM_STATE_SEED "prog"
    state_data := some stateRecBase
    pool_mint := { key := "lpmint", owner := "tok", data := some (lpMintRec 200000) }
    source_key := "lpSrc"
    token_a := { key := "poolA", owner := "tok", data := some poolAAccount }
    token_b := { key := "poolB", owner := "tok", data := some poolBAccount }
    dest_token_a_key := "destA"
    dest_token_b_key := "destB"
    token_program_key := "tok" }

/-- The context `withdrawPrecheck` resolves for `wdInputBase`. -/
def wdCtxBase : WithdrawCtx :=
  { token_swap := poolRecBase
    state := stateRecBase
    token_a := poolAAccount
    token_b := poolBAccount
    pool_mint := lpMintRec 200000 }

/-- The base withdraw invocation against a pool whose liquidity supply
(50,000) is already below the `MIN_LP_SUPPLY` floor (100,000). -/
def wdInputLowSupply : WithdrawInput :=
  { wdInputBase with
      pool_token_amount := 1
      pool_mint := { key := "lpmint", owner := "tok", data := some (lpMintRec 50000) } }

/-- Counterexample to C2: on a pool state whose liquidity-token supply
(50,000) is below the floor `MIN_LP_SUPPLY` (100,000), a withdrawal request
of one token is rejected outright with `CalculationFailure` - the floor
subtraction underflows - rather than being clamped, so the claimed clamping
behaviour does not hold for every pool state. -/
theorem claim_C2_counterexample :
    MIN_LP_SUPPLY = 100000 ∧
    withdrawPrecheck wdInputLowSupply =
      .ok ⟨poolRecBase, stateRecBase, poolAAccount, poolBAccount, lpMintRec 50000⟩ ∧
    (lpMintRec 50000).supply < MIN_LP_SUPPLY ∧
    process_withdraw_all_token_types wdInputLowSupply =
      ⟨.error (.amm .CalculationFailure), []⟩ := by
  decide

/-- C2 (amended): on every withdraw invocation against a pool whose
liquidity-token supply is at least `MIN_LP_SUPPLY`, the floor computation
never rejects the request (no `CalculationFailure`); on success the burned
amount is exactly `min(requested, supply - MIN_LP_SUPPLY)`, so the supply
never drops below the floor; a pool whose supply is already below the floor
is instead rejected with `CalculationFailure` (see the counterexample). -/
theorem claim_C2_amended (inp : WithdrawInput) (ctx : WithdrawCtx)
    (hpre : withdrawPrecheck inp = .ok ctx)
    (hsup : MIN_LP_SUPPLY ≤ ctx.pool_mint.supply) :
    (process_withdraw_all_token_types inp).result ≠ .error (.amm .CalculationFailure)
    ∧ ((process_withdraw_all_token_types inp).result = .ok () →
        ∃ t, (process_withdraw_all_token_types inp).trace =
          Action.burn inp.source_key inp.pool_mint.key
            (min inp.pool_token_amount (ctx.pool_mint.supply - MIN_LP_SUPPLY)) :: t)
    ∧ MIN_LP_SUPPLY ≤ ctx.pool_mint.supply -
        min inp.pool_token_amount (ctx.pool_mint.supply - MIN_LP_SUPPLY) := by
  have hcs : checked_sub ctx.pool_mint.supply MIN_LP_SUPPLY =
      some (ctx.pool_mint.supply - MIN_LP_SUPPLY) := by
    simp [checked_sub, hsup]
  simp only [process_withdraw_all_token_types, hpre, hcs, Nat.sub_zero]
  cases hp : ctx.state.swap_curve.calculator.pool_tokens_to_trading_tokens
      (min inp.pool_token_amount (ctx.pool_mint.supply - MIN_LP_SUPPLY))
      ctx.pool_mint.supply ctx.token_a.amount ctx.token_b.amount .Floor with
  | none => exact ⟨by simp [hp], by simp [hp], by omega⟩
  | some results =>
    cases h1 : to_u64 results.token_a_amount with
    | error e =>
        have he := to_u64_error h1
        subst he
        exact ⟨by simp [hp, h1], by simp [hp, h1], by omega⟩
    | ok a64 =>
      by_cases hs1 : min ctx.token_a.amount a64 < inp.minimum_token_a_amount
      · exact ⟨by simp only [hp, h1, if_pos hs1]; simp,
               by simp only [hp, h1, if_pos hs1]; simp, by omega⟩
      · by_cases hz1 : min ctx.token_a.amount a64 = 0 ∧ ctx.token_a.amount ≠ 0
        · exact ⟨by simp only [hp, h1, if_neg hs1, if_pos hz1]; simp,
                 by simp only [hp, h1, if_neg hs1, if_pos hz1]; simp, by omega⟩
        · cases h2 : to_u64 results.token_b_amount with
          | error e =>
              have he := to_u64_error h2
              subst he
              exact ⟨by simp only [hp, h1, if_neg hs1, if_neg hz1, h2]; simp,
                     by simp only [hp, h1, if_neg hs1, if_neg hz1, h2]; simp, by omega⟩
          | ok b64 =>
            by_cases hs2 : min ctx.token_b.amount b64 < inp.minimum_token_b_amount
            · exact ⟨by simp only [hp, h1, if_neg hs1, if_neg hz1, h2, if_pos hs2]; simp,
                     by simp only [hp, h1, if_neg hs1, if_neg hz1, h2, if_pos hs2]; simp,
                     by omega⟩
            · by_cases hz2 : min ctx.token_b.amount b64 = 0 ∧ ctx.token_b.amount ≠ 0
              · exact ⟨by simp only [hp, h1, if_neg hs1, if_neg hz1, h2, if_neg hs2,
                          if_pos hz2]; simp,
                       by simp only [hp, h1, if_neg hs1, if_neg hz1, h2, if_neg hs2,
                          if_pos hz2]; simp, by omega⟩
              · cases h3 : to_u64 (min inp.pool_token_amount
                    (ctx.pool_mint.supply - MIN_LP_SUPPLY)) with
                | error e =>
                    have he := to_u64_error h3
                    subst he
                    exact ⟨by simp only [hp, h1, if_neg hs1, if_neg hz1, h2, if_neg hs2,
                              if_neg hz2, h3]; simp,
                           by simp only [hp, h1, if_neg hs1, if_neg hz1, h2, if_neg hs2,
                              if_neg hz2, h3]; simp, by omega⟩
                | ok burn64 =>
                    have hb := to_u64_ok h3
                    subst hb
                    refine ⟨by simp only [hp, h1, if_neg hs1, if_neg hz1, h2, if_neg hs2,
                              if_neg hz2, h3]; simp, ?_, by omega⟩
                    intro _
                    simp only [hp, h1, if_neg hs1, if_neg hz1, h2, if_neg hs2,
                      if_neg hz2, h3]
                    exact ⟨_, rfl⟩

/-- Witness for the amended C2: the concrete 50,000-token withdraw against
the 200,000-supply pool is not rejected by the floor computation and burns
exactly the clamped amount. -/
theorem claim_C2_amended_witness :
    (process_withdraw_all_token_types wdInputBase).result ≠
      .error (.amm .CalculationFailure) ∧
    ∃ t, (process_withdraw_all_token_types wdInputBase).trace =
      Action.burn wdInputBase.source_key wdInputBase.pool_mint.key
        (min wdInputBase.pool_token_amount
          (wdCtxBase.pool_mint.supply - MIN_LP_SUPPLY)) :: t := by
  have h := claim_C2_amended wdInputBase wdCtxBase (by decide) (by decide)
  exact ⟨h.1, h.2.1 (by decide)⟩

/-- C9: on every successful withdraw, each side's transferred amount is the
curve-computed amount capped at that side's vault balance, and a zero
transfer is skipped (the trace holds a transfer for a side exactly when the
capped amount is positive); moreover a computed zero amount on a side with
an empty vault is not an error: withdrawing from a pool whose A side is
empty still succeeds when the B side passes its checks. -/
theorem claim_C9 (inp : WithdrawInput) (ctx : WithdrawCtx)
    (hpre : withdrawPrecheck inp = .ok ctx) :
    ((process_withdraw_all_token_types inp).result = .ok () →
      ∃ results a64 b64 burn64,
        ctx.state.swap_curve.calculator.pool_tokens_to_trading_tokens
          (min inp.pool_token_amount (ctx.pool_mint.supply - MIN_LP_SUPPLY))
          ctx.pool_mint.supply ctx.token_a.amount ctx.token_b.amount .Floor
          = some results ∧
        to_u64 results.token_a_amount = .ok a64 ∧
        to_u64 results.token_b_amount = .ok b64 ∧
        to_u64 (min inp.pool_token_amount (ctx.pool_mint.supply - MIN_LP_SUPPLY))
          = .ok burn64 ∧
        (process_withdraw_all_token_types inp).trace =
          Action.burn inp.source_key inp.pool_mint.key burn64 ::
          ((if 0 < min ctx.token_a.amount a64
            then [Action.transfer inp.token_a.key inp.dest_token_a_key
                    (min ctx.token_a.amount a64)] else []) ++
           (if 0 < min ctx.token_b.amount b64
            then [Action.transfer inp.token_b.key inp.dest_token_b_key
                    (min ctx.token_b.amount b64)] else [])))
    ∧ (∀ results : TradingTokenResult,
        ctx.state.swap_curve.calculator.pool_tokens_to_trading_tokens
          (min inp.pool_token_amount (ctx.pool_mint.supply - MIN_LP_SUPPLY))
          ctx.pool_mint.supply ctx.token_a.amount ctx.token_b.amount .Floor
          = some results →
        MIN_LP_SUPPLY ≤ ctx.pool_mint.supply →
        ctx.token_a.amount = 0 →
        results.token_a_amount = 0 →
        inp.minimum_token_a_amount = 0 →
        results.token_b_amount < 2 ^ 64 →
        inp.minimum_token_b_amount ≤ min ctx.token_b.amount results.token_b_amount →
        (min ctx.token_b.amount results.token_b_amount = 0 → ctx.token_b.amount = 0) →
        min inp.pool_token_amount (ctx.pool_mint.supply - MIN_LP_SUPPLY) < 2 ^ 64 →
        (process_withdraw_all_token_types inp).result = .ok ()) := by
  constructor
  · intro hok
    cases hcs : checked_sub ctx.pool_mint.supply MIN_LP_SUPPLY with
    | none =>
        exfalso
        simp only [process_withdraw_all_token_types, hpre, hcs] at hok
        exact Except.noConfusion hok
    | some max_pta =>
    have hle := (checked_sub_some hcs).2
    rw [(checked_sub_some hcs).1] at hcs
    cases hp : ctx.state.swap_curve.calculator.pool_tokens_to_trading_tokens
        (min inp.pool_token_amount (ctx.pool_mint.supply - MIN_LP_SUPPLY))
        ctx.pool_mint.supply ctx.token_a.amount ctx.token_b.amount .Floor with
    | none =>
        exfalso
        simp only [process_withdraw_all_token_types, hpre, hcs, Nat.sub_zero, hp] at hok
        exact Except.noConfusion hok
    | some results =>
    cases h1 : to_u64 results.token_a_amount with
    | error e =>
        exfalso
        simp only [process_withdraw_all_token_types, hpre, hcs, Nat.sub_zero, hp, h1] at hok
        exact Except.noConfusion hok
    | ok a64 =>
    by_cases hs1 : min ctx.token_a.amount a64 < inp.minimum_token_a_amount
    · exfalso
      simp only [process_withdraw_all_token_types, hpre, hcs, Nat.sub_zero, hp, h1,
        if_pos hs1] at hok
      exact Except.noConfusion hok
    · by_cases hz1 : min ctx.token_a.amount a64 = 0 ∧ ctx.token_a.amount ≠ 0
      · exfalso
        simp only [process_withdraw_all_token_types, hpre, hcs, Nat.sub_zero, hp, h1,
          if_neg hs1, if_pos hz1] at hok
        exact Except.noConfusion hok
      · cases h2 : to_u64 results.token_b_amount with
        | error e =>
            exfalso
            simp only [process_withdraw_all_token_types, hpre, hcs, Nat.sub_zero, hp, h1,
              if_neg hs1, if_neg hz1, h2] at hok
            exact Except.noConfusion hok
        | ok b64 =>
        by_cases hs2 : min ctx.token_b.amount b64 < inp.minimum_token_b_amount
        · exfalso
          simp only [process_withdraw_all_token_types, hpre, hcs, Nat.sub_zero, hp, h1,
            if_neg hs1, if_neg hz1, h2, if_pos hs2] at hok
          exact Except.noConfusion hok
        · by_cases hz2 : min ctx.token_b.amount b64 = 0 ∧ ctx.token_b.amount ≠ 0
          · exfalso
            simp only [process_withdraw_all_token_types, hpre, hcs, Nat.sub_zero, hp, h1,
              if_neg hs1, if_neg hz1, h2, if_neg hs2, if_pos hz2] at hok
            exact Except.noConfusion hok
          · cases h3 : to_u64 (min inp.pool_token_amount
                (ctx.pool_mint.supply - MIN_LP_SUPPLY)) with
            | error e =>
                exfalso
                simp only [process_withdraw_all_token_types, hpre, hcs, Nat.sub_zero, hp, h1,
                  if_neg hs1, if_neg hz1, h2, if_neg hs2, if_neg hz2, h3] at hok
                exact Except.noConfusion hok
            | ok burn64 =>
                refine ⟨results, a64, b64, burn64, rfl, h1, h2, rfl, ?_⟩
                simp only [process_withdraw_all_token_types, hpre, hcs, Nat.sub_zero, hp, h1,
                  if_neg hs1, if_neg hz1, h2, if_neg hs2, if_neg hz2, h3]
  · intro results hp hsup hza hra hmina hb64 hminb hbz hburn
    have hcs : checked_sub ctx.pool_mint.supply MIN_LP_SUPPLY =
        some (ctx.pool_mint.supply - MIN_LP_SUPPLY) := by
      simp [checked_sub, hsup]
    have h1 : to_u64 results.token_a_amount = .ok 0 := by
      rw [hra]; simp [to_u64]
    have h2 : to_u64 results.token_b_amount = .ok results.token_b_amount := by
      unfold to_u64
      rw [if_pos hb64]
    have h3 : to_u64 (min inp.pool_token_amount (ctx.pool_mint.supply - MIN_LP_SUPPLY))
        = .ok (min inp.pool_token_amount (ctx.pool_mint.supply - MIN_LP_SUPPLY)) := by
      unfold to_u64
      rw [if_pos hburn]
    have hs1 : ¬(min ctx.token_a.amount 0 < inp.minimum_token_a_amount) := by omega
    have hz1 : ¬(min ctx.token_a.amount 0 = 0 ∧ ctx.token_a.amount ≠ 0) := by omega
    have hs2 : ¬(min ctx.token_b.amount results.token_b_amount <
        inp.minimum_token_b_amount) := by omega
    have hz2 : ¬(min ctx.token_b.amount results.token_b_amount = 0 ∧
        ctx.token_b.amount ≠ 0) := by
      intro hx
      exact hx.2 (hbz hx.1)
    simp only [process_withdraw_all_token_types, hpre, hcs, Nat.sub_zero, hp, h1,
      if_neg hs1, if_neg hz1, h2, if_neg hs2, if_neg hz2, h3]

/-- The base withdraw invocation with the A-side vault empty. -/
def wdInputEmptyA : WithdrawInput :=
  { wdInputBase with
      token_a := { key := "poolA", owner := "tok",
                   data := some { poolAAccount with amount := 0 } } }

/-- The context `withdrawPrecheck` resolves for `wdInputEmptyA`. -/
def wdCtxEmptyA : WithdrawCtx :=
  { wdCtxBase with token_a := { poolAAccount with amount := 0 } }

/-- Witness for C9: withdrawing from the pool whose A side is empty (the
curve computes zero for that side) still succeeds for the B side. -/
theorem claim_C9_witness :
    (process_withdraw_all_token_types wdInputEmptyA).result = .ok () :=
  (claim_C9 wdInputEmptyA wdCtxEmptyA (by decide)).2
    { token_a_amount := 0, token_b_amount := 250000 }
    (by decide) (by decide) (by decide) (by decide) (by decide) (by decide)
    (by decide) (by decide) (by decide)

end SwapSol
